import Mathlib

/-!
# Verification of the scrapeMM retrieval core

A shallow embedding of the retrieval orchestration engine of the scrapeMM
repository, together with theorems settling the specification claims about it.

Embedded code:
* `src/scrapemm/retrieval.py` — `retrieve` (orchestrator) and `_retrieve_single`
  (method chain executor);
* `src/util.py` — `run_with_semaphore` (bounded-concurrency batch executor),
  modelled as a transition system;
* `src/scrapemm/integrations/bluesky.py` — `Bluesky.get` with its post/profile
  paths, and `download_hls_video` (the HLS media reconstruction pipeline).

Conventions: Python exceptions are modelled with `Except PyErr`; a Python
function that may raise is embedded with result type `Except PyErr α`, and a
`try/except` block becomes a `match` on that result.  Network effects are
modelled by explicit environment records (`HlsEnv`, `BskyEnv`) mapping URLs to
responses; `none` stands for a failed request (non-200 status or a connection
error caught at the call site).
-/

/-- A Python exception, as observed by the handlers in the embedded code. -/
inductive PyErr where
  /-- `NameError` / `UnboundLocalError`: a local variable referenced before
  assignment. -/
  | nameError : PyErr
  /-- `IndexError`, e.g. `list[-1]` on an empty list. -/
  | indexError : PyErr
  /-- `ValueError` with its message. -/
  | valueError (msg : String) : PyErr
  /-- Any other exception raised by a backend or library call. -/
  | exc : PyErr
deriving DecidableEq, Repr

instance {ε α : Type} [DecidableEq ε] [DecidableEq α] :
    DecidableEq (Except ε α) := fun x y =>
  match x, y with
  | .ok a, .ok b =>
    if h : a = b then isTrue (by rw [h])
    else isFalse (by intro hh; cases hh; exact h rfl)
  | .ok _, .error _ => isFalse (by intro hh; cases hh)
  | .error _, .ok _ => isFalse (by intro hh; cases hh)
  | .error e, .error e' =>
    if h : e = e' then isTrue (by rw [h])
    else isFalse (by intro hh; cases hh; exact h rfl)

/-- `String.startsWith`, computed on the character lists (the library
implementation does not reduce definitionally). -/
def str_startsWith (s pre : String) : Bool :=
  List.isPrefixOf pre.toList s.toList

/-- `String.drop`, computed on the character lists. -/
def str_drop (s : String) (n : Nat) : String :=
  String.mk (s.toList.drop n)

/-- Python's `s.split(sep)` for a one-character separator, empty parts kept. -/
def splitOnChar (c : Char) (s : String) : List String :=
  go s.toList []
where
  go : List Char → List Char → List String
  | [], acc => [String.mk acc.reverse]
  | x :: xs, acc =>
    if x = c then String.mk acc.reverse :: go xs []
    else go xs (x :: acc)

/-- Join strings with a dot separator (`'.'.join`). -/
def join_dot : List String → String
  | [] => ""
  | [x] => x
  | x :: xs => x ++ "." ++ join_dot xs

/-- Python's substring test `pat in s` on strings. -/
def strContains (s pat : String) : Bool :=
  go s.toList pat.toList
where
  go : List Char → List Char → Bool
  | [], p => p.isEmpty
  | l@(_ :: rest), p => List.isPrefixOf p l || go rest p

section MethodChain

variable {α : Type}

/-- The `method_map` dictionary built in `_retrieve_single`
(`retrieval.py` lines 70–74): it maps the three known method names to the
invocation of the corresponding backend.  Each backend invocation is a value of
type `Except PyErr (Option α)`: it may raise, or return content (`some`) or no
result (`none`). -/
def method_map (integrations decodo firecrawl : Except PyErr (Option α)) :
    String → Option (Except PyErr (Option α)) := fun name =>
  if name = "integrations" then some integrations
  else if name = "decodo" then some decodo
  else if name = "firecrawl" then some firecrawl
  else none

/-- The method names present in `method_map`. -/
def isKnownMethod (name : String) : Bool :=
  name = "integrations" || name = "decodo" || name = "firecrawl"

/-- The `try`-block body of `_retrieve_single` (`retrieval.py` lines 76–91):
iterate over the method names; an unknown name is skipped with a warning; a
known method is invoked — if it raises, the exception propagates out of the
loop (to the handler in `retrieve_single`); a `some` result is returned at
once; on `none` the loop continues.  When the loop ends, return `none`. -/
def retrieve_single_loop (lookup : String → Option (Except PyErr (Option α))) :
    List String → Except PyErr (Option α)
  | [] => .ok none
  | m :: rest =>
    match lookup m with
    | none => retrieve_single_loop lookup rest
    | some (.error e) => .error e
    | some (.ok (some c)) => .ok (some c)
    | some (.ok none) => retrieve_single_loop lookup rest

/-- Like `retrieve_single_loop`, but also records the names of the methods
actually invoked (those whose backend lambda is called), in order. -/
def retrieve_single_loop_trace (lookup : String → Option (Except PyErr (Option α))) :
    List String → Except PyErr (Option α) × List String
  | [] => (.ok none, [])
  | m :: rest =>
    match lookup m with
    | none => retrieve_single_loop_trace lookup rest
    | some (.error e) => (.error e, [m])
    | some (.ok (some c)) => (.ok (some c), [m])
    | some (.ok none) =>
      let (res, tr) := retrieve_single_loop_trace lookup rest
      (res, m :: tr)

/-- `_retrieve_single` (`retrieval.py` lines 62–95): the loop body wrapped in
the catch-all `try/except` that logs the error and returns `None`. -/
def retrieve_single (integrations decodo firecrawl : Except PyErr (Option α))
    (methods : List String) : Option α :=
  match retrieve_single_loop (method_map integrations decodo firecrawl) methods with
  | .ok r => r
  | .error _ => none

/-- Specification-side definition, following the spec's words for the Method
Chain Executor: return the first non-null result of the methods in the given
order (`results` gives the value each method produces; unknown methods produce
no result). -/
def firstSomeSpec (results : String → Option α) : List String → Option α
  | [] => none
  | m :: rest =>
    match results m with
    | some c => some c
    | none => firstSomeSpec results rest

/-- Specification-side definition of which methods an executor that
short-circuits at the first success invokes: every known method in order, up
to and including the first one that yields a result. -/
def invokedSpec (lookup : String → Option (Except PyErr (Option α))) :
    List String → List String
  | [] => []
  | m :: rest =>
    match lookup m with
    | none => invokedSpec lookup rest
    | some (.error _) => [m]
    | some (.ok (some _)) => [m]
    | some (.ok none) => m :: invokedSpec lookup rest

end MethodChain

section Orchestrator

variable {α β : Type}

/-- Lookup in a Python dict represented as an association list
(the `dict(zip(urls_unique, results))` of `retrieval.py` line 55). -/
def dict_get (kvs : List (String × β)) (k : String) : Option β :=
  (kvs.find? (fun p => p.1 == k)).map (·.2)

/-- The batch branch of `retrieve` (`retrieval.py` lines 40–56), with the
per-URL retrieval abstracted as `single` (in the source, `_retrieve_single`
applied to the shared session and method list; it is deterministic per URL
within one call).  The set `set(urls)` is modelled by `List.dedup`; its
iteration order is unspecified in Python, and the reconstruction through the
result dict makes the output independent of it. -/
def retrieve_batch (single : String → Option α) (urls : List String) :
    List (Option α) :=
  if urls.length = 0 then []
  else if urls.length = 1 then [single (urls.headD "")]
  else
    let urls_unique := urls.dedup
    let results := urls_unique.map (fun u => (u, single u))
    -- `results[url]` cannot miss: every url of `urls` is in `set(urls)`,
    -- so the `getD none` default is never taken.
    urls.map (fun u => (dict_get results u).getD none)

/-- The list of URLs for which a retrieval task is dispatched by `retrieve`:
none for the empty batch, the single URL for a one-element batch, and the
deduplicated URL set otherwise (`retrieval.py` lines 41–50). -/
def dispatched_tasks (urls : List String) : List String :=
  if urls.length = 0 then []
  else if urls.length = 1 then [urls.headD ""]
  else urls.dedup

/-- The argument of `retrieve`: a string, a list of strings, or any other
value (Python is dynamically typed). -/
inductive UrlsArg where
  | str (s : String) : UrlsArg
  | list (l : List String) : UrlsArg
  | other : UrlsArg

/-- The result shape of `retrieve`: a single optional content value or a list
of them. -/
inductive RetrieveResult (α : Type) where
  | single (r : Option α) : RetrieveResult α
  | batch (rs : List (Option α)) : RetrieveResult α
deriving DecidableEq

/-- The top-level dispatch of `retrieve` (`retrieval.py` lines 36–59): a
string argument goes to `_retrieve_single`, a list to the batch branch, and
anything else raises `ValueError`. -/
def retrieve (single : String → Option α) : UrlsArg → Except PyErr (RetrieveResult α)
  | .str s => .ok (.single (single s))
  | .list l => .ok (.batch (retrieve_batch single l))
  | .other => .error (.valueError "\x27urls\x27 must be a string or a list of strings.")

end Orchestrator

section Semaphore

/-!
`run_with_semaphore` (`util.py` lines 85–120) wraps every task in
`limited_coroutine`, which acquires an `asyncio.Semaphore(limit)` before
awaiting the task and releases it afterwards.  The cooperative scheduler is
modelled as a transition system: a state counts the tasks that have not yet
acquired a slot (`pending`), the tasks currently holding a slot (`running`,
i.e. un-suspended on the semaphore), and the semaphore's free-slot counter
(`sem`).  The progress-bar poller only reads `task.done()` and never touches
the semaphore, so it has no transition of its own.
-/

/-- A scheduler state of `run_with_semaphore`. -/
structure SemState where
  /-- Tasks still waiting to acquire the semaphore. -/
  pending : Nat
  /-- Tasks that have acquired a slot and are in flight. -/
  running : Nat
  /-- Free slots of the `asyncio.Semaphore`. -/
  sem : Nat
deriving DecidableEq, Repr

/-- One scheduler transition: a waiting task acquires a free slot
(`async with semaphore` entry), or a running task completes and releases its
slot (`async with` exit). -/
inductive SemStep : SemState → SemState → Prop
  | acquire (p r s : Nat) : SemStep ⟨p + 1, r, s + 1⟩ ⟨p, r + 1, s⟩
  | release (p r s : Nat) : SemStep ⟨p, r + 1, s⟩ ⟨p, r, s + 1⟩

/-- The initial state of `run_with_semaphore(tasks, limit)` with `n` tasks:
all tasks wait, the semaphore holds `limit` free slots
(`asyncio.Semaphore(limit)`, `util.py` line 101). -/
def semInit (n limit : Nat) : SemState := ⟨n, 0, limit⟩

/-- The concurrency limit `retrieve` passes to `run_with_semaphore` on its
batch path (`retrieval.py` line 51). -/
def retrieve_semaphore_limit : Nat := 20

end Semaphore

section Hls

/-!
Embedding of `download_hls_video` (`integrations/bluesky.py` lines 252–361).
The network is an explicit environment: `fetchPlaylist` stands for a `GET`
followed by `m3u8.loads` (`none` for a non-200 status — which makes the code
return `None` directly — or any error caught by the enclosing handler, which
also yields `None` overall); `fetchSegment` stands for a segment `GET`
(`none` for a non-200 status, which is skipped silently, or an exception,
which is caught and logged by the per-segment handler — both drop the
segment).  The `ffmpeg` subprocess is a function from the concatenated bytes
to one of its three observed outcomes.
-/

/-- A variant entry of a master playlist (`playlist.playlists` of the `m3u8`
library): a declared bandwidth — never read by the embedded code — and the
URI of its media playlist. -/
structure Variant where
  bandwidth : Option Nat
  uri : String
deriving DecidableEq, Repr

/-- A media-playlist segment (`playlist.segments`): its URI, possibly
relative. -/
structure Segment where
  uri : String
deriving DecidableEq, Repr

/-- A parsed m3u8 playlist, as exposed by `m3u8.loads`. -/
structure Playlist where
  is_variant : Bool
  playlists : List Variant
  segments : List Segment
deriving DecidableEq, Repr

/-- The network as seen by the HLS pipeline. -/
structure HlsEnv where
  /-- `session.get(url)` + `await .text()` + `m3u8.loads`; `none` when the
  status is not 200 or the fetch/parse raises. -/
  fetchPlaylist : String → Option Playlist
  /-- `session.get(url)` + `await .read()` for a segment; `none` when the
  status is not 200 or the request raises. -/
  fetchSegment : String → Option (List Nat)

/-- Outcome of the `subprocess.run(['ffmpeg', ...])` call on the concatenated
segment bytes. -/
inductive FfmpegResult where
  /-- Conversion succeeded; the resulting MP4 bytes. -/
  | success (out : List Nat) : FfmpegResult
  /-- `subprocess.CalledProcessError`: ffmpeg exited non-zero. -/
  | failed : FfmpegResult
  /-- `FileNotFoundError`: ffmpeg is not installed. -/
  | notFound : FfmpegResult
deriving DecidableEq, Repr

/-- The container format of the produced artifact, i.e. which temp-file
branch built the `Video`: converted MP4, or the raw concatenated TS blob. -/
inductive VideoFormat where
  | ts : VideoFormat
  | mp4 : VideoFormat
deriving DecidableEq, Repr

/-- The `ezmm` `Video` object produced by the pipeline: its binary data, the
originating playlist URL, and the container format of the data. -/
structure Video where
  binary_data : List Nat
  source_url : String
  format : VideoFormat
deriving DecidableEq, Repr

/-- `url.rsplit('/', 1)[0] + '/'`: the prefix of `url` up to and including its
last slash (or `url + "/"` when it has no slash). -/
def rsplit_base (url : String) : String :=
  match url.toList.reverse.dropWhile (fun c => c != '/') with
  | [] => url ++ "/"
  | l => String.mk l.reverse

/-- Modelled subset of `urllib.parse.urljoin` covering the reference shapes
the pipeline produces: an absolute `http(s)` URL is returned as is, any other
reference is appended to the base (which the callers always end with `/`).
The stdlib's handling of rooted and dotted references is not needed here and
is elided. -/
def urljoin (base url : String) : String :=
  if str_startsWith url "http://" || str_startsWith url "https://" then url
  else base ++ url

/-- The construction of `segment_url` (`bluesky.py` lines 294–298): an
absolute URI is used as is; otherwise `urljoin(base_url, uri)` — which raises
`NameError` when `base_url` was never assigned (it is only assigned in the
`is_variant` branch). -/
def segment_url_of (base_url : Option String) (seg : Segment) :
    Except PyErr String :=
  if str_startsWith seg.uri "http" then .ok seg.uri
  else
    match base_url with
    | some b => .ok (urljoin b seg.uri)
    | none => .error .nameError

/-- The segment download loop (`bluesky.py` lines 290–307): segments are
visited in playlist order; a segment whose request fails or returns a non-200
status is skipped without retry; the `NameError` from an unassigned
`base_url` is not caught by the per-segment handler and propagates. -/
def fetch_segments (env : HlsEnv) (base_url : Option String) :
    List Segment → Except PyErr (List (List Nat))
  | [] => .ok []
  | seg :: rest =>
    match segment_url_of base_url seg with
    | .error e => .error e
    | .ok su =>
      match fetch_segments env base_url rest with
      | .error e => .error e
      | .ok tail =>
        match env.fetchSegment su with
        | some data => .ok (data :: tail)
        | none => .ok tail

/-- Lines 309–361: combine the downloaded segments and transcode.  With no
successful segment the code falls through to the final `return None`;
otherwise the blob is concatenated in order and handed to ffmpeg — success
gives an MP4 `Video`, `CalledProcessError` and `FileNotFoundError` both fall
back to a TS `Video` with the raw blob. -/
def hls_segments_phase (env : HlsEnv) (ffmpeg : List Nat → FfmpegResult)
    (base_url : Option String) (pl : Playlist) (playlist_url : String) :
    Except PyErr (Option Video) :=
  match fetch_segments env base_url pl.segments with
  | .error e => .error e
  | .ok segs =>
    if segs.isEmpty then .ok none
    else
      let combined := segs.flatten
      match ffmpeg combined with
      | .success out => .ok (some ⟨out, playlist_url, .mp4⟩)
      | .failed => .ok (some ⟨combined, playlist_url, .ts⟩)
      | .notFound => .ok (some ⟨combined, playlist_url, .ts⟩)

/-- The `try`-block body of `download_hls_video` (lines 257–356): fetch and
parse the playlist; on a master playlist take `playlist.playlists[-1]`
(an `IndexError` on an empty list), resolve its URI against the base of the
playlist URL, fetch the variant playlist (non-200 → `None`), update the base,
and run the segment phase; on a media playlist run the segment phase with
`base_url` unassigned. -/
def hls_body (env : HlsEnv) (ffmpeg : List Nat → FfmpegResult)
    (playlist_url : String) : Except PyErr (Option Video) :=
  match env.fetchPlaylist playlist_url with
  | none => .ok none
  | some playlist =>
    if playlist.is_variant then
      match playlist.playlists.getLast? with
      | none => .error .indexError
      | some best_playlist =>
        let base_url := rsplit_base playlist_url
        let variant_url := urljoin base_url best_playlist.uri
        match env.fetchPlaylist variant_url with
        | none => .ok none
        | some variant_playlist =>
          hls_segments_phase env ffmpeg (some (rsplit_base variant_url))
            variant_playlist playlist_url
    else
      hls_segments_phase env ffmpeg none playlist playlist_url

/-- `download_hls_video` (lines 252–361): the body wrapped in the catch-all
`except` that logs and returns `None`. -/
def download_hls_video (env : HlsEnv) (ffmpeg : List Nat → FfmpegResult)
    (playlist_url : String) : Option Video :=
  match hls_body env ffmpeg playlist_url with
  | .ok v => v
  | .error _ => none

/-- The playlist URLs requested by `hls_body`, in order: the given playlist
URL, then — when it parses to a master playlist with at least one variant —
the URL resolved from the last-listed variant's URI. -/
def hls_playlist_requests (env : HlsEnv) (playlist_url : String) : List String :=
  match env.fetchPlaylist playlist_url with
  | none => [playlist_url]
  | some playlist =>
    if playlist.is_variant then
      match playlist.playlists.getLast? with
      | none => [playlist_url]
      | some best_playlist =>
        [playlist_url, urljoin (rsplit_base playlist_url) best_playlist.uri]
    else [playlist_url]

/-- Erase every declared bandwidth of a playlist's variants. -/
def strip_bandwidths (pl : Playlist) : Playlist :=
  { pl with playlists := pl.playlists.map (fun v => { v with bandwidth := none }) }

/-- The same network, with every declared bandwidth erased from every served
playlist. -/
def strip_bandwidths_env (env : HlsEnv) : HlsEnv :=
  { env with fetchPlaylist := fun u => (env.fetchPlaylist u).map strip_bandwidths }

end Hls

section Bluesky

/-!
Embedding of `Bluesky.get` and its two paths (`integrations/bluesky.py`
lines 40–178).  The `atproto` client and the media downloader are an explicit
environment (`BskyEnv`); a call that may raise has result type
`Except PyErr _`.
-/

/-- An `ezmm` image handle; `reference` is the string interpolated into the
profile text (`avatar.reference or 'None'`). -/
structure BskyImage where
  reference : String
deriving DecidableEq, Repr

/-- The profile record returned by `client.get_profile`.  `avatar`, `banner`
and `description` model Python optional strings, with `none` standing for a
falsy value (`None` or the empty string). -/
structure BskyProfile where
  avatar : Option String
  banner : Option String
  display_name : String
  handle : String
  created_at : String
  description : Option String
  followers_count : Nat
  follows_count : Nat
  posts_count : Nat
deriving DecidableEq, Repr

/-- A `MultimodalSequence` as far as these claims observe it: its rendered
text (the profile path builds a text-only sequence). -/
structure MMSeq where
  text : String
deriving DecidableEq, Repr

/-- The external collaborators of `Bluesky.get`. -/
structure BskyEnv where
  /-- `self.client.get_profile(handle)`: a network call that may raise. -/
  get_profile : String → Except PyErr BskyProfile
  /-- `ezmm.download_image(url, session)`: may raise. -/
  download_image : String → Except PyErr BskyImage
  /-- `Bluesky._construct_uri(url)` (lines 191–223): URL parsing plus the
  `resolve_handle` network call; its internal `try/except` logs any failure
  and falls off the end, returning `None`. -/
  construct_uri : String → Option String
  /-- The body of the `try` block of `_retrieve_post` (lines 63–146): thread
  fetch, field extraction, media download and text assembly; it raises on a
  missing/blocked post or any client error, and returns the assembled
  sequence otherwise. -/
  post_body : String → Except PyErr MMSeq

/-- `Bluesky.domains` (line 25). -/
def bluesky_domains : List String := ["bsky.app"]

/-- Modelled from the `DOMAIN_REGEX` extraction in `util.py` (`get_domain`):
the scheme and a leading `www.` are stripped, the host is everything before
the first `/`, and only the second- and top-level labels are kept; a host
without a dot does not match the regex, giving `None`.  The regex's
character-class details are elided. -/
def get_domain (url : String) : Option String :=
  let rest := if str_startsWith url "https://" then str_drop url 8
              else if str_startsWith url "http://" then str_drop url 7 else url
  let rest := if str_startsWith rest "www." then str_drop rest 4 else rest
  let host := (splitOnChar '/' rest).headD ""
  let labels := splitOnChar '.' host
  if labels.length ≥ 2 then
    some (join_dot (labels.drop (labels.length - 2)))
  else none

/-- Python's `s or default` for strings: the default when `s` is falsy. -/
def pyOr (s default : String) : String := if s = "" then default else s

/-- The profile text assembled at lines 164–177. -/
def profile_text (p : BskyProfile) (avatar banner : BskyImage) (url : String) :
    String :=
  "**Profile on Bluesky**\nUser: " ++ p.display_name ++ " (@" ++ p.handle ++
  ")\nCreated on: " ++ p.created_at ++
  "\nProfile image: " ++ pyOr avatar.reference "None" ++
  "\nProfile banner: " ++ pyOr banner.reference "None" ++
  "\n\nURL: " ++ url ++
  "\nDescription: " ++
    (match p.description with
     | some d => pyOr d "No description provided"
     | none => "No description provided") ++
  "\n\nMetrics:\n- Follower count: " ++ toString p.followers_count ++
  "\n- Following count: " ++ toString p.follows_count ++
  "\n- Post count: " ++ toString p.posts_count

/-- `Bluesky._retrieve_profile` (lines 154–178).  There is no `try/except` in
this method: any exception from `get_profile` or `download_image` propagates.
`avatar` and `banner` are only assigned inside `if profile.avatar:` /
`if profile.banner:`, yet the text interpolation reads both unconditionally —
a profile without an avatar or banner raises `UnboundLocalError`
(modelled as `PyErr.nameError`). -/
def retrieve_profile (env : BskyEnv) (url : String) : Except PyErr MMSeq :=
  match env.get_profile ((splitOnChar '/' url).getLastD "") with
  | .error e => .error e
  | .ok profile =>
    let avatarStep : Except PyErr (Option BskyImage) :=
      match profile.avatar with
      | some a => (env.download_image a).map some
      | none => .ok none
    match avatarStep with
    | .error e => .error e
    | .ok avatar =>
      let bannerStep : Except PyErr (Option BskyImage) :=
        match profile.banner with
        | some b => (env.download_image b).map some
        | none => .ok none
      match bannerStep with
      | .error e => .error e
      | .ok banner =>
        match avatar, banner with
        | some av, some bn => .ok ⟨profile_text profile av bn url⟩
        | _, _ => .error .nameError

/-- `Bluesky._retrieve_post` (lines 56–151): construct the AT URI (`None`
aborts with `None`), then run the body under the catch-all `try/except`
that logs and returns `None`. -/
def retrieve_post (env : BskyEnv) (url : String) : Option MMSeq :=
  match env.construct_uri url with
  | none => none
  | some uri =>
    match env.post_body uri with
    | .ok seq => some seq
    | .error _ => none

/-- `Bluesky.get` (lines 40–54): not authenticated or a foreign domain gives
`None`; a URL containing `"post"` goes to `_retrieve_post`, any other to
`_retrieve_profile`.  The result type `Except` records that the method body
itself has no exception handler. -/
def bluesky_get (authenticated : Bool) (env : BskyEnv) (url : String) :
    Except PyErr (Option MMSeq) :=
  if authenticated = false then .ok none
  else
    match get_domain url with
    | some d =>
      if d ∈ bluesky_domains then
        if strContains url "post" then .ok (retrieve_post env url)
        else (retrieve_profile env url).map some
      else .ok none
    | none => .ok none

end Bluesky

section Examples

/-- An ffmpeg that is not installed: every invocation raises
`FileNotFoundError`. -/
def ffmpeg_unavailable : List Nat → FfmpegResult := fun _ => .notFound

/-- An ffmpeg that always exits non-zero (`subprocess.CalledProcessError`). -/
def ffmpeg_broken : List Nat → FfmpegResult := fun _ => .failed

/-- A network serving a master playlist whose variants are listed with the
highest declared bandwidth FIRST (`[1500, 500]` in listing order), each
variant with a one-segment media playlist of distinctive bytes. -/
def hls_env_hi_first : HlsEnv where
  fetchPlaylist := fun u =>
    if u = "https://h/master.m3u8" then
      some ⟨true, [⟨some 1500, "hi.m3u8"⟩, ⟨some 500, "lo.m3u8"⟩], []⟩
    else if u = "https://h/hi.m3u8" then
      some ⟨false, [], [⟨"https://h/hi0.ts"⟩]⟩
    else if u = "https://h/lo.m3u8" then
      some ⟨false, [], [⟨"https://h/lo0.ts"⟩]⟩
    else none
  fetchSegment := fun u =>
    if u = "https://h/hi0.ts" then some [1]
    else if u = "https://h/lo0.ts" then some [2]
    else none

/-- A direct (non-master) media playlist with a relative segment URI; the
segment itself is served at its resolved URL. -/
def hls_env_direct_relative : HlsEnv where
  fetchPlaylist := fun u =>
    if u = "https://h/media.m3u8" then some ⟨false, [], [⟨"seg1.ts"⟩]⟩
    else none
  fetchSegment := fun u =>
    if u = "https://h/seg1.ts" then some [9] else none

/-- A master playlist with one variant of three segments, of which the second
fails to download. -/
def hls_env_three_segments : HlsEnv where
  fetchPlaylist := fun u =>
    if u = "https://h/master.m3u8" then
      some ⟨true, [⟨some 1000, "v.m3u8"⟩], []⟩
    else if u = "https://h/v.m3u8" then
      some ⟨false, [], [⟨"s1.ts"⟩, ⟨"s2.ts"⟩, ⟨"s3.ts"⟩]⟩
    else none
  fetchSegment := fun u =>
    if u = "https://h/s1.ts" then some [10, 11]
    else if u = "https://h/s3.ts" then some [30]
    else none

/-- The same playlists, but every segment request fails. -/
def hls_env_no_segments : HlsEnv :=
  { hls_env_three_segments with fetchSegment := fun _ => none }

/-- A Bluesky environment whose profile lookup succeeds with a profile that
has neither avatar nor banner. -/
def bsky_env_plain_profile : BskyEnv where
  get_profile := fun _ =>
    .ok ⟨none, none, "Alice", "alice.test", "2024-01-01", none, 0, 0, 0⟩
  download_image := fun _ => .ok ⟨"img"⟩
  construct_uri := fun _ => none
  post_body := fun _ => .error .exc

end Examples

/-!
## Supporting lemmas
-/

section MethodChainLemmas

variable {α : Type}

theorem retrieve_single_loop_trace_fst
    (lookup : String → Option (Except PyErr (Option α))) (ms : List String) :
    (retrieve_single_loop_trace lookup ms).1 = retrieve_single_loop lookup ms := by
  induction ms with
  | nil => rfl
  | cons m rest ih =>
    simp only [retrieve_single_loop_trace, retrieve_single_loop]
    cases h : lookup m with
    | none => exact ih
    | some b =>
      cases b with
      | error e => rfl
      | ok r => cases r with
        | none => simpa using ih
        | some c => rfl

theorem retrieve_single_loop_trace_snd
    (lookup : String → Option (Except PyErr (Option α))) (ms : List String) :
    (retrieve_single_loop_trace lookup ms).2 = invokedSpec lookup ms := by
  induction ms with
  | nil => rfl
  | cons m rest ih =>
    simp only [retrieve_single_loop_trace, invokedSpec]
    cases h : lookup m with
    | none => exact ih
    | some b =>
      cases b with
      | error e => rfl
      | ok r => cases r with
        | none => simpa using ih
        | some c => rfl

/-- When no method raises, the loop computes exactly the first non-null
result. -/
theorem retrieve_single_loop_no_raise (i d f : Option α) (ms : List String) :
    retrieve_single_loop (method_map (.ok i) (.ok d) (.ok f)) ms =
      .ok (firstSomeSpec
        (fun m => if m = "integrations" then i
                  else if m = "decodo" then d
                  else if m = "firecrawl" then f else none) ms) := by
  induction ms with
  | nil => rfl
  | cons m rest ih =>
    simp only [retrieve_single_loop, firstSomeSpec, method_map]
    by_cases h1 : m = "integrations"
    · simp only [h1, if_true]
      cases i <;> simp [ih]
    · by_cases h2 : m = "decodo"
      · simp only [h1, h2, if_false, if_true]
        cases d <;> simp [ih]
      · by_cases h3 : m = "firecrawl"
        · simp only [h1, h2, h3, if_false, if_true]
          cases f <;> simp [ih]
        · simp only [h1, h2, h3, if_false]
          simpa using ih

/-- Skipping unknown method names is the same as filtering them out of the
list before the loop. -/
theorem retrieve_single_loop_filter
    (i d f : Except PyErr (Option α)) (ms : List String) :
    retrieve_single_loop (method_map i d f) ms =
      retrieve_single_loop (method_map i d f) (ms.filter isKnownMethod) := by
  induction ms with
  | nil => rfl
  | cons m rest ih =>
    by_cases hk : isKnownMethod m = true
    · have hms : (m :: rest).filter isKnownMethod = m :: rest.filter isKnownMethod := by
        simp [List.filter, hk]
      rw [hms]
      simp only [retrieve_single_loop]
      cases h : method_map i d f m with
      | none => exact ih
      | some b => cases b with
        | error e => rfl
        | ok r => cases r with
          | none => exact ih
          | some c => rfl
    · have hlook : method_map i d f m = none := by
        simp only [isKnownMethod, Bool.or_eq_true, decide_eq_true_eq] at hk
        push_neg at hk
        simp [method_map, hk.1.1, hk.1.2, hk.2]
      have hms : (m :: rest).filter isKnownMethod = rest.filter isKnownMethod := by
        simp [List.filter, Bool.eq_false_iff.mpr hk]
      rw [hms, retrieve_single_loop, hlook]
      exact ih

theorem retrieve_single_loop_trace_filter
    (i d f : Except PyErr (Option α)) (ms : List String) :
    retrieve_single_loop_trace (method_map i d f) ms =
      retrieve_single_loop_trace (method_map i d f) (ms.filter isKnownMethod) := by
  induction ms with
  | nil => rfl
  | cons m rest ih =>
    by_cases hk : isKnownMethod m = true
    · have hms : (m :: rest).filter isKnownMethod = m :: rest.filter isKnownMethod := by
        simp [List.filter, hk]
      rw [hms]
      simp only [retrieve_single_loop_trace]
      cases h : method_map i d f m with
      | none => exact ih
      | some b => cases b with
        | error e => rfl
        | ok r => cases r with
          | none => rw [ih]
          | some c => rfl
    · have hlook : method_map i d f m = none := by
        simp only [isKnownMethod, Bool.or_eq_true, decide_eq_true_eq] at hk
        push_neg at hk
        simp [method_map, hk.1.1, hk.1.2, hk.2]
      have hms : (m :: rest).filter isKnownMethod = rest.filter isKnownMethod := by
        simp [List.filter, Bool.eq_false_iff.mpr hk]
      rw [hms, retrieve_single_loop_trace, hlook]
      exact ih

theorem retrieve_single_loop_append
    (lookup : String → Option (Except PyErr (Option α))) (xs ys : List String) :
    retrieve_single_loop lookup (xs ++ ys) =
      match retrieve_single_loop lookup xs with
      | .ok none => retrieve_single_loop lookup ys
      | r => r := by
  induction xs with
  | nil => rfl
  | cons m rest ih =>
    simp only [List.cons_append, retrieve_single_loop]
    cases h : lookup m with
    | none => exact ih
    | some b => cases b with
      | error e => rfl
      | ok r => cases r with
        | none => exact ih
        | some c => rfl

theorem firstSomeSpec_of_none (ms : List String) :
    firstSomeSpec (fun _ => (none : Option α)) ms = none := by
  induction ms with
  | nil => rfl
  | cons m rest ih => simpa [firstSomeSpec] using ih

end MethodChainLemmas

section OrchestratorLemmas

variable {α β : Type}

theorem map_congr_mem {l : List β} {f g : β → Option α}
    (h : ∀ a ∈ l, f a = g a) : l.map f = l.map g := by
  induction l with
  | nil => rfl
  | cons x xs ih =>
    simp only [List.map_cons]
    rw [h x (by simp), ih (fun a ha => h a (by simp [ha]))]

theorem dict_get_map_self (f : String → Option α) (l : List String) (u : String)
    (hu : u ∈ l) :
    dict_get (l.map (fun x => (x, f x))) u = some (f u) := by
  induction l with
  | nil => cases hu
  | cons x xs ih =>
    simp only [List.map_cons, dict_get, List.find?]
    by_cases hx : x = u
    · subst hx
      simp
    · have : (x == u) = false := by simpa using hx
      simp only [this]
      rcases List.mem_cons.mp hu with h | h
      · exact absurd h.symm hx
      · simpa [dict_get] using ih h

/-- The batch branch of `retrieve` is, observably, a pointwise map of the
per-URL retrieval over the input list: same length, same order, duplicates
broadcast. -/
theorem retrieve_batch_eq_map (single : String → Option α) (urls : List String) :
    retrieve_batch single urls = urls.map single := by
  unfold retrieve_batch
  by_cases h0 : urls.length = 0
  · rw [List.length_eq_zero] at h0
    subst h0
    rfl
  · by_cases h1 : urls.length = 1
    · rw [List.length_eq_one] at h1
      obtain ⟨u, rfl⟩ := h1
      simp
    · simp only [h0, h1, if_false]
      refine map_congr_mem (fun u hu => ?_)
      rw [dict_get_map_self single urls.dedup u (List.mem_dedup.mpr hu)]
      rfl

end OrchestratorLemmas

section SemaphoreLemmas

theorem semStep_invariant {limit : Nat} {s s' : SemState} (hstep : SemStep s s')
    (h : s.running + s.sem = limit) : s'.running + s'.sem = limit := by
  cases hstep with
  | acquire p r c => simp only [SemState.running, SemState.sem] at h ⊢; omega
  | release p r c => simp only [SemState.running, SemState.sem] at h ⊢; omega

theorem semReachable_invariant {n limit : Nat} {s : SemState}
    (h : Relation.ReflTransGen SemStep (semInit n limit) s) :
    s.running + s.sem = limit := by
  induction h with
  | refl => simp [semInit]
  | tail _ hstep ih => exact semStep_invariant hstep ih

end SemaphoreLemmas

section HlsLemmas

theorem getLast?_map {α β : Type} (f : α → β) (l : List α) :
    (l.map f).getLast? = (l.getLast?).map f := by
  induction l with
  | nil => rfl
  | cons x xs ih =>
    cases xs with
    | nil => rfl
    | cons y ys => simpa [List.getLast?_cons_cons] using ih

theorem fetch_segments_strip (env : HlsEnv) (b : Option String)
    (l : List Segment) :
    fetch_segments (strip_bandwidths_env env) b l = fetch_segments env b l := by
  induction l with
  | nil => rfl
  | cons seg rest ih =>
    simp only [fetch_segments]
    rw [ih]
    cases hsu : segment_url_of b seg with
    | error e => rfl
    | ok su =>
      cases ht : fetch_segments env b rest with
      | error e => rfl
      | ok tail => rfl

theorem hls_segments_phase_strip (env : HlsEnv) (ffmpeg : List Nat → FfmpegResult)
    (b : Option String) (vp : Playlist) (u : String) :
    hls_segments_phase (strip_bandwidths_env env) ffmpeg b (strip_bandwidths vp) u =
      hls_segments_phase env ffmpeg b vp u := by
  simp only [hls_segments_phase, strip_bandwidths]
  rw [fetch_segments_strip]

/-- The pipeline never reads a declared bandwidth: its output on a network
with all bandwidths erased is unchanged. -/
theorem download_hls_video_bandwidth_blind (env : HlsEnv)
    (ffmpeg : List Nat → FfmpegResult) (playlist_url : String) :
    download_hls_video (strip_bandwidths_env env) ffmpeg playlist_url =
      download_hls_video env ffmpeg playlist_url := by
  unfold download_hls_video
  have hbody : hls_body (strip_bandwidths_env env) ffmpeg playlist_url =
      hls_body env ffmpeg playlist_url := by
    unfold hls_body
    show (match (env.fetchPlaylist playlist_url).map strip_bandwidths with
      | none => Except.ok none
      | some playlist => _) = _
    cases hp : env.fetchPlaylist playlist_url with
    | none => rfl
    | some playlist =>
      simp only [Option.map]
      show (if (strip_bandwidths playlist).is_variant then _ else _) = _
      by_cases hiv : playlist.is_variant
      · have hv : (strip_bandwidths playlist).is_variant = true := hiv
        simp only [hv, hiv, if_true]
        have hgl : (strip_bandwidths playlist).playlists.getLast? =
            (playlist.playlists.getLast?).map
              (fun v => { v with bandwidth := none }) := by
          simp only [strip_bandwidths]
          exact getLast?_map _ _
        rw [hgl]
        cases hl : playlist.playlists.getLast? with
        | none => rfl
        | some best =>
          simp only [Option.map]
          show (match ((env.fetchPlaylist
              (urljoin (rsplit_base playlist_url) best.uri)).map strip_bandwidths) with
            | none => Except.ok none
            | some variant_playlist => _) = _
          cases hp2 : env.fetchPlaylist (urljoin (rsplit_base playlist_url) best.uri) with
          | none => rfl
          | some vp =>
            simp only [Option.map]
            exact hls_segments_phase_strip env ffmpeg _ vp playlist_url
      · have hv : (strip_bandwidths playlist).is_variant = false :=
          Bool.eq_false_iff.mpr hiv
        simp only [hv, if_false, Bool.eq_false_iff.mpr hiv]
        exact hls_segments_phase_strip env ffmpeg none playlist playlist_url
  rw [hbody]

theorem segments_phase_none_iff (env : HlsEnv) (ff ff' : List Nat → FfmpegResult)
    (b : Option String) (pl : Playlist) (u : String) :
    ((match hls_segments_phase env ff b pl u with
      | .ok v => v
      | .error _ => none) = (none : Option Video)) ↔
    ((match hls_segments_phase env ff' b pl u with
      | .ok v => v
      | .error _ => none) = (none : Option Video)) := by
  unfold hls_segments_phase
  cases hseg : fetch_segments env b pl.segments with
  | error e => simp
  | ok segs =>
    by_cases hs : segs.isEmpty
    · simp [hs]
    · simp only [hs, if_false]
      cases ff segs.flatten <;> cases ff' segs.flatten <;> simp

/-- Whether `download_hls_video` yields `None` does not depend on the ffmpeg
outcome: the transcode step alone never turns a reconstructed video into
`None`, nor the other way around. -/
theorem download_hls_video_none_ff_independent (env : HlsEnv)
    (ff ff' : List Nat → FfmpegResult) (url : String) :
    (download_hls_video env ff url = none ↔ download_hls_video env ff' url = none) := by
  unfold download_hls_video hls_body
  cases hp : env.fetchPlaylist url with
  | none => simp
  | some pl =>
    by_cases hv : pl.is_variant
    · simp only [hv, if_true]
      cases hl : pl.playlists.getLast? with
      | none => simp
      | some best =>
        dsimp only
        cases hp2 : env.fetchPlaylist (urljoin (rsplit_base url) best.uri) with
        | none => simp
        | some vp => exact segments_phase_none_iff env ff ff' _ vp url
    · simp only [Bool.eq_false_iff.mpr hv, if_false]
      exact segments_phase_none_iff env ff ff' none pl url

end HlsLemmas

/-!
## Claim theorems
-/

section MethodChainClaims

/-- **C1** (counterexample) — The claim says that when a retrieval method
raises, the executor treats it as "no result" and goes on with the remaining
methods.  On the code, the catch-all wraps the whole loop: with the first
method raising and the second returning a sentinel, `_retrieve_single`
returns `None` — whereas with the first method merely returning no result the
second method's sentinel is returned, so the divergence is caused by the
raise alone. -/
theorem C1_counterexample :
    retrieve_single (α := Nat) (.error .exc) (.ok (some 7)) (.ok none)
      ["integrations", "decodo"] = none
    ∧ retrieve_single (α := Nat) (.ok none) (.ok (some 7)) (.ok none)
        ["integrations", "decodo"] = some 7 := ⟨rfl, rfl⟩

/-- **C1** (amended) — An exception raised by a retrieval method is caught by
the executor's handler and converted to `None` — it never propagates — but the
remaining methods are NOT attempted: the executor returns `None` for that URL
immediately, and the invocation trace stops at the raising method. -/
theorem C1_exception_caught_aborts_chain (α : Type) :
    (∀ (i d f : Except PyErr (Option α)) (ms : List String) (e : PyErr),
      retrieve_single_loop (method_map i d f) ms = .error e →
      retrieve_single i d f ms = none)
    ∧ (∀ (i d f : Except PyErr (Option α)) (ms rest : List String)
        (m : String) (e : PyErr),
      ms.filter isKnownMethod = m :: rest →
      method_map i d f m = some (.error e) →
      retrieve_single i d f ms = none ∧
        (retrieve_single_loop_trace (method_map i d f) ms).2 = [m]) := by
  constructor
  · intro i d f ms e h
    unfold retrieve_single
    rw [h]
  · intro i d f ms rest m e hfil hm
    have htr : retrieve_single_loop_trace (method_map i d f) ms =
        retrieve_single_loop_trace (method_map i d f) (m :: rest) := by
      rw [retrieve_single_loop_trace_filter, hfil]
    have htr2 : retrieve_single_loop_trace (method_map i d f) (m :: rest) =
        (.error e, [m]) := by
      simp only [retrieve_single_loop_trace, hm]
    constructor
    · unfold retrieve_single
      have hloop : retrieve_single_loop (method_map i d f) ms = .error e := by
        rw [← retrieve_single_loop_trace_fst, htr, htr2]
      rw [hloop]
    · rw [htr, htr2]

/-- Witness for the amended C1: the first known method (after an unknown tag)
raises; the chain yields `None` although the next method would have returned
a sentinel, and only the raising method was invoked. -/
theorem C1_exception_caught_aborts_chain_witness :
    retrieve_single (α := Nat) (.error .exc) (.ok (some 5)) (.ok none)
      ["bogus", "integrations", "decodo"] = none
    ∧ (retrieve_single_loop_trace
        (method_map (α := Nat) (.error .exc) (.ok (some 5)) (.ok none))
        ["bogus", "integrations", "decodo"]).2 = ["integrations"] :=
  (C1_exception_caught_aborts_chain Nat).2 (.error .exc) (.ok (some 5)) (.ok none)
    ["bogus", "integrations", "decodo"] ["decodo"] "integrations" .exc
    (by decide) rfl

/-- **C5** — When no method raises, the executor returns exactly the first
non-`None` result in the order given; once a method succeeds, the methods
after it are irrelevant (any suffix gives the same result); when every method
produces no result the executor returns `None`; and with method A returning
`None` and method B a sentinel, `[A, B]` yields the sentinel. -/
theorem C5_first_success_short_circuits (α : Type) :
    (∀ (i d f : Option α) (ms : List String),
      retrieve_single (.ok i) (.ok d) (.ok f) ms =
        firstSomeSpec (fun m =>
          if m = "integrations" then i
          else if m = "decodo" then d
          else if m = "firecrawl" then f else none) ms)
    ∧ (∀ (i d f : Except PyErr (Option α)) (pre suffix : List String)
        (m : String) (c : α),
        retrieve_single_loop (method_map i d f) pre = .ok none →
        method_map i d f m = some (.ok (some c)) →
        retrieve_single i d f (pre ++ m :: suffix) = some c)
    ∧ (∀ ms : List String,
        retrieve_single (α := α) (.ok none) (.ok none) (.ok none) ms = none)
    ∧ retrieve_single (α := Nat) (.ok none) (.ok (some 7)) (.ok none)
        ["integrations", "decodo"] = some 7 := by
  refine ⟨?_, ?_, ?_, rfl⟩
  · intro i d f ms
    unfold retrieve_single
    rw [retrieve_single_loop_no_raise]
  · intro i d f pre suffix m c hpre hm
    unfold retrieve_single
    rw [retrieve_single_loop_append, hpre]
    simp only [retrieve_single_loop]
    rw [hm]
  · intro ms
    unfold retrieve_single
    rw [retrieve_single_loop_no_raise]
    have hfun : (fun m : String =>
        if m = "integrations" then (none : Option α)
        else if m = "decodo" then none
        else if m = "firecrawl" then none else none) = fun _ => none := by
      funext m
      split_ifs <;> rfl
    rw [hfun, firstSomeSpec_of_none]

/-- Witness for C5: after a no-result first method, the second method's
sentinel is returned with a further method still pending. -/
theorem C5_first_success_short_circuits_witness :
    retrieve_single (α := Nat) (.ok none) (.ok (some 3)) (.ok none)
      (["integrations"] ++ "decodo" :: ["firecrawl"]) = some 3 :=
  (C5_first_success_short_circuits Nat).2.1 (.ok none) (.ok (some 3)) (.ok none)
    ["integrations"] ["firecrawl"] "decodo" 3 rfl rfl

/-- **C9** — Unknown method tags are skipped and never fatal: the executor
behaves exactly as on the list with unknown tags filtered out, and
`["bogus", B]` with B returning a sentinel still yields the sentinel. -/
theorem C9_unknown_methods_skipped (α : Type) :
    (∀ (i d f : Except PyErr (Option α)) (ms : List String),
      retrieve_single i d f ms = retrieve_single i d f (ms.filter isKnownMethod))
    ∧ retrieve_single (α := Nat) (.ok none) (.ok (some 7)) (.ok none)
        ["bogus", "decodo"] = some 7 := by
  refine ⟨?_, rfl⟩
  intro i d f ms
  unfold retrieve_single
  rw [retrieve_single_loop_filter]

end MethodChainClaims

section OrchestratorClaims

/-- **C2** — The batch path of `retrieve` returns one result per input URL in
input order, each position carrying the per-URL retrieval value (so
duplicated URLs receive equal results), and dispatches exactly one retrieval
task per distinct URL. -/
theorem C2_batch_order_and_dedup (α : Type) :
    (∀ (single : String → Option α) (urls : List String),
      retrieve_batch single urls = urls.map single)
    ∧ (∀ (urls : List String) (u : String), u ∈ urls →
        (dispatched_tasks urls).count u = 1) := by
  constructor
  · exact retrieve_batch_eq_map
  · intro urls u hu
    unfold dispatched_tasks
    by_cases h0 : urls.length = 0
    · rw [List.length_eq_zero] at h0
      subst h0
      cases hu
    · by_cases h1 : urls.length = 1
      · rw [List.length_eq_one] at h1
        obtain ⟨v, rfl⟩ := h1
        have huv : u = v := by simpa using hu
        subst huv
        simp
      · simp only [h0, h1, if_false]
        exact List.count_eq_one_of_mem (List.nodup_dedup urls) (List.mem_dedup.mpr hu)

/-- Witness for C2 at `[u1, u2, u1, u3]`: the result has length 4, position 0
and 2 coincide, and the duplicated URL appears exactly once among the
dispatched tasks. -/
theorem C2_batch_order_and_dedup_witness :
    retrieve_batch (fun u => some (u ++ "!")) ["u1", "u2", "u1", "u3"] =
      [some "u1!", some "u2!", some "u1!", some "u3!"]
    ∧ (dispatched_tasks ["u1", "u2", "u1", "u3"]).count "u1" = 1 :=
  ⟨by rw [(C2_batch_order_and_dedup String).1 (fun u => some (u ++ "!"))
        ["u1", "u2", "u1", "u3"]]; rfl,
   (C2_batch_order_and_dedup String).2 ["u1", "u2", "u1", "u3"] "u1" (by decide)⟩

/-- **C10** — `retrieve` raises `ValueError` (with the source's message) on an
argument that is neither a string nor a list, and returns `[]` for the empty
list without dispatching any retrieval task. -/
theorem C10_input_validation (α : Type) :
    (∀ single : String → Option α,
      retrieve single .other =
        .error (.valueError "\x27urls\x27 must be a string or a list of strings."))
    ∧ (∀ single : String → Option α,
      retrieve single (.list []) = .ok (.batch []))
    ∧ dispatched_tasks [] = [] :=
  ⟨fun _ => rfl, fun _ => rfl, rfl⟩

end OrchestratorClaims

section SemaphoreClaims

/-- **C6** — In every state reachable by the semaphore discipline of
`run_with_semaphore` from `n` pending tasks and `limit` free slots, at most
`limit` tasks are simultaneously in flight (a task beyond that bound cannot
take an `acquire` step until a slot frees); and the orchestrator's batch path
passes limit 20. -/
theorem C6_semaphore_bounds_concurrency :
    (∀ (n limit : Nat) (st : SemState),
      Relation.ReflTransGen SemStep (semInit n limit) st → st.running ≤ limit)
    ∧ retrieve_semaphore_limit = 20 := by
  constructor
  · intro n limit st h
    have hinv := semReachable_invariant h
    omega
  · rfl

/-- Witness for C6: with 5 tasks and limit 2, the state after one acquire
step has 1 task in flight, within the bound. -/
theorem C6_semaphore_bounds_concurrency_witness :
    (SemState.mk 4 1 1).running ≤ 2 :=
  C6_semaphore_bounds_concurrency.1 5 2 ⟨4, 1, 1⟩
    (Relation.ReflTransGen.single (SemStep.acquire 4 0 1))

end SemaphoreClaims

section HlsClaims

/-- **C3** (counterexample) — With the variants listed as bandwidth
`[1500, 500]`, the pipeline fetches the `500`-bandwidth variant's media
playlist (the last listed) and reconstructs its bytes — not the
highest-bandwidth variant the claim predicts. -/
theorem C3_counterexample :
    download_hls_video hls_env_hi_first ffmpeg_unavailable
      "https://h/master.m3u8" = some ⟨[2], "https://h/master.m3u8", .ts⟩
    ∧ hls_playlist_requests hls_env_hi_first "https://h/master.m3u8" =
      ["https://h/master.m3u8", "https://h/lo.m3u8"] := ⟨by decide, by decide⟩

/-- **C3** (amended) — The pipeline always selects the LAST-listed variant of
a master playlist (`playlists[-1]`), and declared bandwidths are never
consulted: erasing every bandwidth from the network leaves the output
unchanged. -/
theorem C3_last_listed_variant_selected :
    (∀ (env : HlsEnv) (url : String) (pl : Playlist) (v : Variant),
      env.fetchPlaylist url = some pl →
      pl.is_variant = true →
      pl.playlists.getLast? = some v →
      hls_playlist_requests env url = [url, urljoin (rsplit_base url) v.uri])
    ∧ (∀ (env : HlsEnv) (ff : List Nat → FfmpegResult) (url : String),
      download_hls_video (strip_bandwidths_env env) ff url =
        download_hls_video env ff url) := by
  constructor
  · intro env url pl v hp hv hl
    simp [hls_playlist_requests, hp, hv, hl]
  · exact download_hls_video_bandwidth_blind

/-- Witness for the amended C3 at the two-variant master playlist. -/
theorem C3_last_listed_variant_selected_witness :
    hls_playlist_requests hls_env_hi_first "https://h/master.m3u8" =
      ["https://h/master.m3u8",
        urljoin (rsplit_base "https://h/master.m3u8") "lo.m3u8"]
    ∧ download_hls_video (strip_bandwidths_env hls_env_hi_first)
        ffmpeg_unavailable "https://h/master.m3u8" =
      download_hls_video hls_env_hi_first ffmpeg_unavailable
        "https://h/master.m3u8" :=
  ⟨C3_last_listed_variant_selected.1 hls_env_hi_first "https://h/master.m3u8"
      ⟨true, [⟨some 1500, "hi.m3u8"⟩, ⟨some 500, "lo.m3u8"⟩], []⟩
      ⟨some 500, "lo.m3u8"⟩ rfl rfl rfl,
   C3_last_listed_variant_selected.2 hls_env_hi_first ffmpeg_unavailable
     "https://h/master.m3u8"⟩

/-- **C7** — Segment handling of the pipeline, evaluated at concrete inputs:
(1) the failing input: a DIRECT media playlist with a relative segment URI
makes the whole pipeline return `None` — `base_url` is only assigned in the
master-playlist branch, so building the segment URL raises `NameError` —
(2) even though the segment itself is served; (3) on the variant path, a
3-segment playlist whose second segment fails yields the concatenation
segment1 ++ segment3 in playlist order as a returned Media Item; (4) when
every segment fails the pipeline yields `None`. -/
theorem C7_segment_pipeline_behavior :
    download_hls_video hls_env_direct_relative ffmpeg_unavailable
      "https://h/media.m3u8" = none
    ∧ hls_env_direct_relative.fetchSegment "https://h/seg1.ts" = some [9]
    ∧ download_hls_video hls_env_three_segments ffmpeg_unavailable
        "https://h/master.m3u8" =
      some ⟨[10, 11, 30], "https://h/master.m3u8", .ts⟩
    ∧ download_hls_video hls_env_no_segments ffmpeg_unavailable
        "https://h/master.m3u8" = none := ⟨by decide, by decide, by decide, by decide⟩

/-- **C8** — When the segments were reconstructed (non-empty download list),
an unavailable ffmpeg (`FileNotFoundError`) and a failing ffmpeg (non-zero
exit) both still produce a `Video` holding the raw concatenated bytes in the
original TS container; moreover whether the pipeline returns `None` never
depends on the ffmpeg outcome at all. -/
theorem C8_transcode_failure_falls_back_to_ts :
    (∀ (env : HlsEnv) (base : Option String) (pl : Playlist) (url : String)
      (bs : List (List Nat)),
      fetch_segments env base pl.segments = .ok bs →
      bs ≠ [] →
      hls_segments_phase env ffmpeg_unavailable base pl url =
        .ok (some ⟨bs.flatten, url, .ts⟩)
      ∧ hls_segments_phase env ffmpeg_broken base pl url =
        .ok (some ⟨bs.flatten, url, .ts⟩))
    ∧ (∀ (env : HlsEnv) (ff ff' : List Nat → FfmpegResult) (url : String),
      download_hls_video env ff url = none ↔
        download_hls_video env ff' url = none) := by
  constructor
  · intro env base pl url bs hseg hne
    have hempty : bs.isEmpty = false := by
      cases bs with
      | nil => exact absurd rfl hne
      | cons a l => rfl
    constructor <;>
      simp [hls_segments_phase, hseg, hempty, ffmpeg_unavailable, ffmpeg_broken]
  · exact download_hls_video_none_ff_independent

/-- Witness for C8: the 3-segment playlist with a failed middle segment,
under both failing-ffmpeg behaviours. -/
theorem C8_transcode_failure_falls_back_to_ts_witness :
    hls_segments_phase hls_env_three_segments ffmpeg_unavailable
      (some "https://h/") ⟨false, [], [⟨"s1.ts"⟩, ⟨"s2.ts"⟩, ⟨"s3.ts"⟩]⟩
      "https://h/master.m3u8" =
      .ok (some ⟨[10, 11, 30], "https://h/master.m3u8", .ts⟩)
    ∧ hls_segments_phase hls_env_three_segments ffmpeg_broken
      (some "https://h/") ⟨false, [], [⟨"s1.ts"⟩, ⟨"s2.ts"⟩, ⟨"s3.ts"⟩]⟩
      "https://h/master.m3u8" =
      .ok (some ⟨[10, 11, 30], "https://h/master.m3u8", .ts⟩) :=
  C8_transcode_failure_falls_back_to_ts.1 hls_env_three_segments
    (some "https://h/") ⟨false, [], [⟨"s1.ts"⟩, ⟨"s2.ts"⟩, ⟨"s3.ts"⟩]⟩
    "https://h/master.m3u8" [[10, 11], [30]] (by decide) (by decide)

end HlsClaims

section BlueskyClaims

/-- **C4** (counterexample) — On the profile path, `Bluesky.get` is not
exception-safe: for a bsky.app profile URL whose profile has no avatar and no
banner, the unconditional reads of the never-assigned `avatar`/`banner`
locals raise, and the exception escapes `get`. -/
theorem C4_counterexample :
    bluesky_get true bsky_env_plain_profile "https://bsky.app/profile/alice" =
      .error .nameError := by decide

/-- **C4** (amended) — `Bluesky.get` never lets an exception escape on the
post path (whose body is wrapped in `try/except`), nor on the
unauthenticated path; the profile path has no handler and may propagate
(see the counterexample), relying on the Method Chain Executor's catch-all
above it. -/
theorem C4_post_path_never_raises :
    (∀ (auth : Bool) (env : BskyEnv) (url : String),
      strContains url "post" = true →
      (bluesky_get auth env url).isOk = true)
    ∧ (∀ (env : BskyEnv) (url : String),
      bluesky_get false env url = .ok none) := by
  constructor
  · intro auth env url hpost
    cases auth with
    | false => rfl
    | true =>
      cases hd : get_domain url with
      | none => simp [bluesky_get, hd, Except.isOk, Except.toBool]
      | some d =>
        by_cases hmem : d ∈ bluesky_domains
        · simp [bluesky_get, hd, hmem, hpost, Except.isOk, Except.toBool]
        · simp [bluesky_get, hd, hmem, Except.isOk, Except.toBool]
  · intro env url
    rfl

/-- Witness for the amended C4: a bsky.app post URL against the same
environment yields an `Except.ok` result. -/
theorem C4_post_path_never_raises_witness :
    (bluesky_get true bsky_env_plain_profile
      "https://bsky.app/profile/alice/post/1").isOk = true :=
  C4_post_path_never_raises.1 true bsky_env_plain_profile
    "https://bsky.app/profile/alice/post/1" (by decide)

end BlueskyClaims
